import Mathlib

/-!
Verification of the recording-and-merge pipeline of `src/recorder.py`
(class `AudioRecorder`).

Shallow embedding conventions:
* Paths are lists of characters (`FsPath := List Char`); the helper `str`
  turns a Lean string literal into such a path.
* The filesystem is an association list from paths to byte sizes
  (`FS := List (FsPath × Nat)`); a path "exists" when it has an entry.
  External capture processes write files between operations, so every
  operation takes the filesystem observed at call time as an argument
  and returns the filesystem as modified by the operation itself.
* Subprocess handles (`subprocess.Popen` objects) are opaque naturals;
  a field holding `none` models the Python attribute being `None`.
* Wall-clock readings (`time.time()`) and the outcomes of the external
  `ffmpeg` invocations are inputs supplied by an environment record:
  `encode`/`concat` is `some n` when the invocation exits 0 and leaves
  an output file of `n` bytes, `none` when it exits non-zero
  (raising `subprocess.CalledProcessError`, which the code catches).
* Python floats (durations, timestamps) are modelled as rationals.
-/

abbrev FsPath : Type := List Char

def str (s : String) : FsPath := s.data

def natStr (n : Nat) : FsPath := (Nat.repr n).data

/-- The filesystem: finitely many files, each with a byte size. -/
abbrev FS : Type := List (FsPath × Nat)

/-- `os.stat`: size of the file at `p`, or `none` when it does not exist. -/
def FS.stat : FS → FsPath → Option Nat
  | [], _ => none
  | (q, n) :: rest, p => if q = p then some n else FS.stat rest p

/-- `FsPath.exists()` in the source: the path names a file. -/
def FS.fexists (fs : FS) (p : FsPath) : Bool := (fs.stat p).isSome

/-- `p.unlink(missing_ok=True)`: remove the file if present. -/
def FS.unlink : FS → FsPath → FS
  | [], _ => []
  | (q, n) :: rest, p => if q = p then FS.unlink rest p else (q, n) :: FS.unlink rest p

/-- Creating/overwriting the file at `p` with `n` bytes (ffmpeg runs with `-y`). -/
def FS.write (fs : FS) (p : FsPath) (n : Nat) : FS := (p, n) :: fs.unlink p

/-- The viability test used throughout `recorder.py`:
`p.exists() and p.stat().st_size > 1000`. -/
def usable (fs : FS) (p : FsPath) : Bool :=
  match fs.stat p with
  | some n => 1000 < n
  | none => false

/-- State of one `AudioRecorder` instance (`__init__`, lines 11-20, plus the
`monitor_wav`/`mic_wav` attributes assigned dynamically in `start`; `none`
models the attribute not having been assigned yet). -/
structure RecorderState where
  process : Option Nat
  monitorProcess : Option Nat
  micProcess : Option Nat
  currentFile : Option FsPath
  recordingParts : List FsPath
  isRecording : Bool
  startTime : Option Rat
  totalDuration : Rat
  monitorThread : Option Nat
  monitorWav : Option FsPath
  micWav : Option FsPath
deriving DecidableEq

/-- The freshly constructed recorder (`AudioRecorder.__init__`). -/
def initState : RecorderState :=
  { process := none, monitorProcess := none, micProcess := none,
    currentFile := none, recordingParts := [], isRecording := false,
    startTime := none, totalDuration := 0, monitorThread := none,
    monitorWav := none, micWav := none }

/-- How the two `subprocess.Popen` calls in `start` turn out: both launch,
the first raises, or the first launches and the second raises. -/
inductive LaunchOutcome where
  | ok (monHandle micHandle : Nat)
  | failMonitor
  | failMic (monHandle : Nat)
deriving DecidableEq

def LaunchOutcome.isFail : LaunchOutcome → Bool
  | .ok _ _ => false
  | .failMonitor => true
  | .failMic _ => true

/-- Environment observed by one call to `start`: the formatted timestamp,
the `time.time()` reading, and the launch outcome. -/
structure StartEnv where
  timestamp : FsPath
  now : Rat
  launch : LaunchOutcome
deriving DecidableEq

/-- `tempfile.gettempdir()` (the source runs with `/tmp`, cf. `config.TEMP_DIR`). -/
def tempDirPath : FsPath := str "/tmp/"

/-- `FsPath(tempfile.gettempdir()) / f"temp_audio_{timestamp}_{len(self.recording_parts)}.mp3"`
computed in `start` (line 57), before the append. -/
def startSegmentPath (s : RecorderState) (ts : FsPath) : FsPath :=
  str "/tmp/temp_audio_" ++ ts ++ str "_" ++ natStr s.recordingParts.length ++ str ".mp3"

def monitorWavPath (ts : FsPath) : FsPath := str "/tmp/monitor_" ++ ts ++ str ".wav"

def micWavPath (ts : FsPath) : FsPath := str "/tmp/mic_" ++ ts ++ str ".wav"

/-- `f"meeting_audio_{timestamp}.mp3"` in `stop` (line 208). -/
def mergedPath (ts : FsPath) : FsPath := str "/tmp/meeting_audio_" ++ ts ++ str ".mp3"

/-- `f"concat_{timestamp}.txt"` in `stop` (line 210). -/
def concatListPath (ts : FsPath) : FsPath := str "/tmp/concat_" ++ ts ++ str ".txt"

/-- `AudioRecorder.start` (lines 52-115).  Device resolution
(`get_powerconf_devices`) only selects arguments of the external capture
commands and never raises, so it has no effect on the modelled state.
`time.sleep(0.1)` and the poll check (lines 107-110) only print.
On a `Popen` exception the assignment of the raising call is skipped and
the `except` branch returns `False` (lines 113-115). -/
def start (s : RecorderState) (env : StartEnv) : Bool × RecorderState :=
  if s.isRecording then (false, s)
  else
    let cf := startSegmentPath s env.timestamp
    let s1 := { s with currentFile := some cf,
                       recordingParts := s.recordingParts ++ [cf] }
    match env.launch with
    | LaunchOutcome.failMonitor => (false, s1)
    | LaunchOutcome.failMic h1 => (false, { s1 with monitorProcess := some h1 })
    | LaunchOutcome.ok h1 h2 =>
        (true, { s1 with
                   monitorProcess := some h1,
                   micProcess := some h2,
                   isRecording := true,
                   startTime := some env.now,
                   monitorWav := some (monitorWavPath env.timestamp),
                   micWav := some (micWavPath env.timestamp) })

/-- The mixdown command selected in `pause` by the chain
`if monitor_exists and mic_exists ... elif monitor_exists ... elif mic_exists
... else` (lines 138-171). -/
inductive MixPolicy where
  | mixBoth
  | monitorOnly
  | micOnly
  | abort
deriving DecidableEq

def selectPolicy (monitorUsable micUsable : Bool) : MixPolicy :=
  if monitorUsable && micUsable then MixPolicy.mixBoth
  else if monitorUsable then MixPolicy.monitorOnly
  else if micUsable then MixPolicy.micOnly
  else MixPolicy.abort

/-- Environment observed by one call to `pause`: the `time.time()` reading and
the outcome of the `ffmpeg` mix/encode invocation. -/
structure PauseEnv where
  now : Rat
  encode : Option Nat
deriving DecidableEq

/-- The mix block of `pause` (lines 134-184), applied to the state `s1` as it
stands after the duration accumulation of lines 130-131.  The three
non-abort policies differ only in which raw files feed the external
encoder; on exit 0 the encoder leaves `self.current_file` on disk and both
raw WAV files are unlinked (lines 174-177); on a non-zero exit the
`CalledProcessError` is caught and only printed (lines 178-179).
`str(None)` renders as the literal path `"None"`. -/
def pauseMix (s1 : RecorderState) (fs : FS) (enc : Option Nat) : Bool × RecorderState × FS :=
  match s1.monitorWav, s1.micWav with
  | some mw, some mcw =>
      match selectPolicy (usable fs mw) (usable fs mcw) with
      | MixPolicy.abort => (false, { s1 with isRecording := false }, fs)
      | _ =>
          let out := match s1.currentFile with
                     | some cf => cf
                     | none => str "None"
          match enc with
          | some n =>
              (true,
               { s1 with isRecording := false, monitorProcess := none,
                         micProcess := none },
               FS.unlink (FS.unlink (FS.write fs out n) mw) mcw)
          | none =>
              (true,
               { s1 with isRecording := false, monitorProcess := none,
                         micProcess := none },
               fs)
  | _, _ =>
      (true,
       { s1 with isRecording := false, monitorProcess := none,
                 micProcess := none },
       fs)

/-- `AudioRecorder.pause` (lines 117-184).  Terminating and waiting on the
capture subprocesses (lines 122-128) changes no field of the object.  The
guard `if self.start_time:` is Python float truthiness: it holds when the
attribute is neither `None` nor `0.0`. -/
def pause (s : RecorderState) (fs : FS) (env : PauseEnv) : Bool × RecorderState × FS :=
  if s.isRecording then
    let s1 :=
      match s.startTime with
      | some t0 =>
          if t0 = 0 then s
          else { s with totalDuration := s.totalDuration + (env.now - t0) }
      | none => s
    pauseMix s1 fs env.encode
  else (false, s, fs)

/-- `resume` (lines 186-187) just delegates to `start`. -/
def resume (s : RecorderState) (env : StartEnv) : Bool × RecorderState :=
  start s env

/-- One `f"file '{part}'\n"` line of the concat manifest (line 214);
character 39 is the single quote, character 10 the newline. -/
def manifestLine (p : FsPath) : FsPath :=
  str "file " ++ [Char.ofNat 39] ++ p ++ [Char.ofNat 39, Char.ofNat 10]

/-- The manifest written in `stop` (lines 211-214): one line per part that
exists at write time. -/
def manifestContent (fs : FS) (parts : List FsPath) : FsPath :=
  (parts.filter (fun p => fs.fexists p)).foldl (fun acc p => acc ++ manifestLine p) []

/-- Environment observed by one call to `stop`: the environment handed to the
inner `pause` (when one is made), the formatted timestamp, and the outcome of
the `ffmpeg` concat invocation. -/
structure StopEnv where
  pauseEnv : PauseEnv
  timestamp : FsPath
  concat : Option Nat
deriving DecidableEq

/-- `AudioRecorder.stop` after the optional inner `pause` (lines 193-239):
the empty-ledger early return, the defensive re-filter (line 197, which
reassigns `self.recording_parts`), the single-part return, and the
concatenation with its success (clean up parts and manifest, reset ledger
and duration) and failure (`return self.recording_parts[0]`) branches. -/
def stopCore (s : RecorderState) (fs : FS) (env : StopEnv) : Option FsPath × RecorderState × FS :=
  if s.recordingParts.isEmpty then (none, s, fs)
  else
    match s.recordingParts.filter (fun p => usable fs p) with
    | [] => (none, { s with recordingParts := [] }, fs)
    | [p] => (some p, { s with recordingParts := [p] }, fs)
    | p :: q :: rest =>
        let parts := p :: q :: rest
        let out := mergedPath env.timestamp
        let cfile := concatListPath env.timestamp
        let fs1 := FS.write fs cfile (manifestContent fs parts).length
        match env.concat with
        | some n =>
            (some out,
             { s with recordingParts := [], totalDuration := 0 },
             FS.unlink (parts.foldl FS.unlink (FS.write fs1 out n)) cfile)
        | none => (some p, { s with recordingParts := parts }, fs1)

/-- `AudioRecorder.stop` (lines 189-239): finalize the open cycle first
(its boolean result is discarded), then run the core. -/
def stop (s : RecorderState) (fs : FS) (env : StopEnv) : Option FsPath × RecorderState × FS :=
  if s.isRecording then
    let r := pause s fs env.pauseEnv
    stopCore r.2.1 r.2.2 env
  else stopCore s fs env

/-- `get_duration` (lines 241-244); `and self.start_time` is again float
truthiness. -/
def get_duration (s : RecorderState) (now : Rat) : Rat :=
  match s.startTime with
  | some t0 =>
      if s.isRecording ∧ t0 ≠ 0 then s.totalDuration + (now - t0)
      else s.totalDuration
  | none => s.totalDuration

/-- `get_file_size` (lines 246-259). -/
def get_file_size (s : RecorderState) (fs : FS) : Nat :=
  let base := s.recordingParts.foldl
    (fun acc p => acc + (match fs.stat p with | some n => n | none => 0)) 0
  if s.isRecording then
    let m1 := match s.monitorWav with
              | some w => (match fs.stat w with | some n => n | none => 0)
              | none => 0
    let m2 := match s.micWav with
              | some w => (match fs.stat w with | some n => n | none => 0)
              | none => 0
    base + m1 + m2
  else base

/-- Every ledger entry produced by `start` carries the fixed 16-character
`temp_audio` tag under the temp directory; states reachable from `initState`
satisfy this shape. -/
def tempSegTag : FsPath := str "/tmp/temp_audio_"

def partsShaped (l : List FsPath) : Bool :=
  l.all (fun p => p.take 16 == tempSegTag)

/-- Monotone-clock side condition for one operation: the wall-clock reading
handed to it is not earlier than the recorded cycle start. -/
def clockOk (s : RecorderState) (now : Rat) : Bool :=
  match s.startTime with
  | some t0 => decide (t0 ≤ now)
  | none => true

/- Concrete data used by witnesses and counterexamples. -/

def tsA : FsPath := str "a"

def tsB : FsPath := str "b"

def seg0 : FsPath := str "/tmp/temp_audio_a_0.mp3"

def seg1 : FsPath := str "/tmp/temp_audio_a_1.mp3"

def monWavA : FsPath := monitorWavPath tsA

def micWavA : FsPath := micWavPath tsA

def fsOne : FS := [(seg0, 4000)]

def fsTwo : FS := [(seg0, 4000), (seg1, 5000)]

/-- A paused session holding one finished segment. -/
def sOne : RecorderState :=
  { initState with recordingParts := [seg0], totalDuration := 7 }

/-- A paused session holding two finished segments. -/
def sTwo : RecorderState :=
  { initState with recordingParts := [seg0, seg1], totalDuration := 10 }

/-- A session with an open capture cycle. -/
def sOpen : RecorderState :=
  { initState with
      monitorProcess := some 1, micProcess := some 2,
      currentFile := some seg0, recordingParts := [seg0],
      isRecording := true, startTime := some 2,
      monitorWav := some monWavA, micWav := some micWavA }

/- General helper lemmas about the filesystem model. -/

theorem stat_unlink (fs : FS) (q p : FsPath) :
    FS.stat (FS.unlink fs q) p = if p = q then none else FS.stat fs p := by
  induction fs with
  | nil => simp [FS.unlink, FS.stat]
  | cons a rest ih =>
    obtain ⟨b, n⟩ := a
    by_cases hbq : b = q <;> by_cases hpq : p = q <;> by_cases hbp : b = p <;>
      simp_all [FS.unlink, FS.stat]

theorem stat_write (fs : FS) (q : FsPath) (n : Nat) (p : FsPath) :
    FS.stat (FS.write fs q n) p = if p = q then some n else FS.stat fs p := by
  show (if q = p then some n else FS.stat (FS.unlink fs q) p)
      = if p = q then some n else FS.stat fs p
  rw [stat_unlink]
  by_cases hpq : p = q
  · simp [hpq]
  · rw [if_neg (fun h => hpq (Eq.symm h)), if_neg hpq, if_neg hpq]

theorem stat_foldl_unlink_of_none (l : List FsPath) (p : FsPath) :
    ∀ fs : FS, FS.stat fs p = none → FS.stat (l.foldl FS.unlink fs) p = none := by
  induction l with
  | nil => intro fs h; simpa using h
  | cons a l ih =>
    intro fs h
    simp only [List.foldl_cons]
    apply ih
    rw [stat_unlink]
    split <;> simp [h]

theorem stat_foldl_unlink_of_mem (l : List FsPath) (p : FsPath) :
    ∀ fs : FS, p ∈ l → FS.stat (l.foldl FS.unlink fs) p = none := by
  induction l with
  | nil => intro fs h; cases h
  | cons a l ih =>
    intro fs h
    simp only [List.foldl_cons]
    rcases List.mem_cons.mp h with h1 | h1
    · exact stat_foldl_unlink_of_none l p (FS.unlink fs a) (by rw [stat_unlink, if_pos h1])
    · exact ih (FS.unlink fs a) h1

theorem take_append_left (l₁ l₂ : List Char) (n : Nat) (h : n ≤ l₁.length) :
    (l₁ ++ l₂).take n = l₁.take n := by
  rw [List.take_append_eq_append_take, Nat.sub_eq_zero_of_le h]
  simp

/- Shape facts about the generated path names. -/

theorem startSegmentPath_take16 (s : RecorderState) (ts : FsPath) :
    (startSegmentPath s ts).take 16 = tempSegTag := by
  have hassoc : startSegmentPath s ts
      = str "/tmp/temp_audio_" ++
        (ts ++ str "_" ++ natStr s.recordingParts.length ++ str ".mp3") := by
    simp [startSegmentPath]
  rw [hassoc, take_append_left _ _ 16 (by decide)]
  decide

theorem shaped_ne_mergedPath (x ts : FsPath) (h : x.take 16 = tempSegTag) :
    x ≠ mergedPath ts := by
  intro he
  have hassoc : mergedPath ts
      = str "/tmp/meeting_audio_" ++ (ts ++ str ".mp3") := by
    simp [mergedPath]
  have hlen : 16 ≤ (str "/tmp/meeting_audio_").length := by decide
  have hm : (mergedPath ts).take 16 = str "/tmp/meeting_aud" := by
    rw [hassoc, take_append_left _ _ 16 hlen]
    decide
  rw [he, hm] at h
  exact absurd h (by decide)

theorem shaped_ne_concatListPath (x ts : FsPath) (h : x.take 16 = tempSegTag) :
    x ≠ concatListPath ts := by
  intro he
  have h12 : x.take 12 = str "/tmp/temp_au" := by
    have htt := List.take_take 12 16 x
    have hmin : (12 : Nat) ⊓ 16 = 12 := by decide
    rw [h, hmin] at htt
    rw [← htt]
    decide
  have hassoc : concatListPath ts
      = str "/tmp/concat_" ++ (ts ++ str ".txt") := by
    simp [concatListPath]
  have hc : (concatListPath ts).take 12 = str "/tmp/concat_" := by
    rw [hassoc, take_append_left _ _ 12 (by decide)]
    decide
  rw [he, hc] at h12
  exact absurd h12 (by decide)

/- Claim theorems. -/

/-- Claim C7: the choice of encoding action at finalize is a pure function of
the usability pair `(monitorUsable, micUsable)` — `selectPolicy` takes exactly
that pair and nothing else, and it realises the table (T,T) ↦ two-input mix,
(T,F) ↦ monitor-only, (F,T) ↦ mic-only, (F,F) ↦ abort. -/
theorem c7_policy_table :
    selectPolicy true true = MixPolicy.mixBoth ∧
    selectPolicy true false = MixPolicy.monitorOnly ∧
    selectPolicy false true = MixPolicy.micOnly ∧
    selectPolicy false false = MixPolicy.abort := by
  decide

/-- Claim C1, counterexample: a successful `start` from the fresh recorder
appends its reserved output path to the ledger although that path does not
exist on the (empty) filesystem at that moment — the ledger-append is a
reservation, not guarded by existence or size. -/
theorem c1_start_appends_nonexistent_path :
    (start initState ⟨tsA, 0, LaunchOutcome.ok 1 2⟩).1 = true ∧
    (start initState ⟨tsA, 0, LaunchOutcome.ok 1 2⟩).2.recordingParts = [seg0] ∧
    initState.recordingParts = [] ∧
    FS.fexists [] seg0 = false ∧
    usable [] seg0 = false := by
  decide

/-- Claim C1 (amended): `start` appends the reserved path before any content
exists; the guarantee the code does give is enforced at `stop`: after the
defensive filter, every path remaining in the ledger exists on the filesystem
observed by `stop` and exceeds 1000 bytes. -/
theorem c1_ledger_valid_after_filter (s : RecorderState) (fs : FS) (env : StopEnv)
    (hrec : s.isRecording = false) :
    ((stop s fs env).2.1.recordingParts).all (fun p => usable fs p) = true := by
  have hstop : stop s fs env = stopCore s fs env := by
    simp [stop, hrec]
  rw [hstop]
  unfold stopCore
  by_cases he : s.recordingParts.isEmpty = true
  · rw [if_pos he]
    simp [List.isEmpty_iff.mp he]
  · rw [if_neg he]
    rcases hf : s.recordingParts.filter (fun p => usable fs p) with _ | ⟨p, _ | ⟨q, rest⟩⟩
    · simp [hf]
    · simp only [hf, List.all_cons, List.all_nil, Bool.and_true]
      have hp : p ∈ s.recordingParts.filter (fun p => usable fs p) := by
        rw [hf]; exact List.mem_cons_self p []
      exact (List.mem_filter.mp hp).2
    · cases hc : env.concat with
      | some n => simp [hf, hc]
      | none =>
        simp only [hf, hc]
        rw [List.all_eq_true]
        intro x hx
        have hmem : x ∈ s.recordingParts.filter (fun p => usable fs p) := by
          rw [hf]; exact hx
        exact (List.mem_filter.mp hmem).2

theorem c1_ledger_valid_after_filter_witness :
    sOne.isRecording = false ∧
    ((stop sOne fsOne ⟨⟨0, none⟩, tsB, some 9000⟩).2.1.recordingParts).all
      (fun p => usable fsOne p) = true :=
  ⟨rfl, c1_ledger_valid_after_filter sOne fsOne ⟨⟨0, none⟩, tsB, some 9000⟩ rfl⟩

/-- Claim C2, counterexample: when the first capture launch raises, `start`
does return `false`, but the ledger does hold the entry created by the failed
call (the path reserved at line 58 stays in `recording_parts`). -/
theorem c2_failed_start_keeps_ledger_entry :
    (start initState ⟨tsA, 0, LaunchOutcome.failMonitor⟩).1 = false ∧
    (start initState ⟨tsA, 0, LaunchOutcome.failMonitor⟩).2.recordingParts = [seg0] := by
  decide

/-- Claim C2 (amended): on a launch failure `start` catches the exception and
returns `false` with the recorder still not recording; the reserved ledger
entry from before the failure remains, but — its path naming no file — it is
never a valid segment: the defensive validity filter sees exactly the same
valid entries as before the failed call. -/
theorem c2_launch_failure_no_valid_segment (s : RecorderState) (env : StartEnv) (fs : FS)
    (hrec : s.isRecording = false) (hfail : env.launch.isFail = true)
    (hnew : FS.fexists fs (startSegmentPath s env.timestamp) = false) :
    (start s env).1 = false ∧
    (start s env).2.isRecording = false ∧
    (start s env).2.recordingParts
      = s.recordingParts ++ [startSegmentPath s env.timestamp] ∧
    ((start s env).2.recordingParts.filter (fun p => usable fs p))
      = s.recordingParts.filter (fun p => usable fs p) := by
  have hnu : usable fs (startSegmentPath s env.timestamp) = false := by
    unfold FS.fexists at hnew
    unfold usable
    cases hstat : FS.stat fs (startSegmentPath s env.timestamp) with
    | none => rfl
    | some n => rw [hstat] at hnew; simp at hnew
  cases hl : env.launch with
  | ok h1 h2 => rw [hl] at hfail; simp [LaunchOutcome.isFail] at hfail
  | failMonitor =>
    refine ⟨?_, ?_, ?_, ?_⟩ <;>
      simp [start, hrec, hl, List.filter_append, hnu]
  | failMic h1 =>
    refine ⟨?_, ?_, ?_, ?_⟩ <;>
      simp [start, hrec, hl, List.filter_append, hnu]

theorem c2_launch_failure_no_valid_segment_witness :
    (sOne.isRecording = false ∧
     LaunchOutcome.isFail (LaunchOutcome.failMonitor) = true ∧
     FS.fexists fsOne (startSegmentPath sOne tsA) = false) ∧
    ((start sOne ⟨tsA, 0, LaunchOutcome.failMonitor⟩).1 = false ∧
     (start sOne ⟨tsA, 0, LaunchOutcome.failMonitor⟩).2.isRecording = false ∧
     (start sOne ⟨tsA, 0, LaunchOutcome.failMonitor⟩).2.recordingParts
       = sOne.recordingParts ++ [startSegmentPath sOne tsA] ∧
     ((start sOne ⟨tsA, 0, LaunchOutcome.failMonitor⟩).2.recordingParts.filter
        (fun p => usable fsOne p))
       = sOne.recordingParts.filter (fun p => usable fsOne p)) :=
  ⟨⟨rfl, rfl, by decide⟩,
   c2_launch_failure_no_valid_segment sOne ⟨tsA, 0, LaunchOutcome.failMonitor⟩ fsOne
     rfl rfl (by decide)⟩

/-- Claim C5, counterexample: on the abort branch (both raw captures
unusable) `pause` returns `false` and clears the recording flag, but the two
subprocess handle fields are NOT cleared — the early `return False` at line
171 skips the `self.monitor_process = None` / `self.mic_process = None`
assignments of lines 182-183. -/
theorem c5_abort_leaves_handles_set :
    (pause sOpen [] ⟨3, some 4000⟩).1 = false ∧
    (pause sOpen [] ⟨3, some 4000⟩).2.1.isRecording = false ∧
    (pause sOpen [] ⟨3, some 4000⟩).2.1.monitorProcess = some 1 ∧
    (pause sOpen [] ⟨3, some 4000⟩).2.1.micProcess = some 2 := by
  decide

/-- Claim C5 (amended): with both raw captures unusable, `pause` returns
`false`, touches no file, leaves the ledger unchanged and clears the
recording flag; the two subprocess handle fields keep their previous
(terminated-process) values rather than being set to `None`. -/
theorem c5_abort_branch (s : RecorderState) (fs : FS) (env : PauseEnv) (mw mcw : FsPath)
    (hrec : s.isRecording = true)
    (hmw : s.monitorWav = some mw) (hmcw : s.micWav = some mcw)
    (hu1 : usable fs mw = false) (hu2 : usable fs mcw = false) :
    (pause s fs env).1 = false ∧
    (pause s fs env).2.2 = fs ∧
    (pause s fs env).2.1.recordingParts = s.recordingParts ∧
    (pause s fs env).2.1.isRecording = false ∧
    (pause s fs env).2.1.monitorProcess = s.monitorProcess ∧
    (pause s fs env).2.1.micProcess = s.micProcess := by
  cases hst : s.startTime with
  | none =>
    refine ⟨?_, ?_, ?_, ?_, ?_, ?_⟩ <;>
      simp [pause, pauseMix, hrec, hst, hmw, hmcw, selectPolicy, hu1, hu2]
  | some t0 =>
    by_cases ht : t0 = 0 <;>
      refine ⟨?_, ?_, ?_, ?_, ?_, ?_⟩ <;>
        simp [pause, pauseMix, hrec, hst, ht, hmw, hmcw, selectPolicy, hu1, hu2]

theorem c5_abort_branch_witness :
    (sOpen.isRecording = true ∧
     sOpen.monitorWav = some monWavA ∧ sOpen.micWav = some micWavA ∧
     usable [] monWavA = false ∧ usable [] micWavA = false) ∧
    ((pause sOpen [] ⟨4, none⟩).1 = false ∧
     (pause sOpen [] ⟨4, none⟩).2.2 = [] ∧
     (pause sOpen [] ⟨4, none⟩).2.1.recordingParts = sOpen.recordingParts ∧
     (pause sOpen [] ⟨4, none⟩).2.1.isRecording = false ∧
     (pause sOpen [] ⟨4, none⟩).2.1.monitorProcess = sOpen.monitorProcess ∧
     (pause sOpen [] ⟨4, none⟩).2.1.micProcess = sOpen.micProcess) :=
  ⟨⟨rfl, rfl, rfl, by decide, by decide⟩,
   c5_abort_branch sOpen [] ⟨4, none⟩ monWavA micWavA rfl rfl rfl
     (by decide) (by decide)⟩

/-- Claim C9: the boolean result of `pause` does not report encode failure —
it equals `is_recording AND (monitor usable OR mic usable)` whatever the
outcome of the external encode invocation (the `CalledProcessError` handler
falls through to `return True`). -/
theorem c9_pause_result_ignores_encode (s : RecorderState) (fs : FS) (env : PauseEnv)
    (mw mcw : FsPath)
    (hmw : s.monitorWav = some mw) (hmcw : s.micWav = some mcw) :
    (pause s fs env).1 = (s.isRecording && (usable fs mw || usable fs mcw)) := by
  obtain ⟨nw, enc⟩ := env
  cases hrec : s.isRecording with
  | false => simp [pause, hrec]
  | true =>
    cases hst : s.startTime with
    | none =>
      cases hu1 : usable fs mw <;> cases hu2 : usable fs mcw <;>
        cases enc <;>
          simp [pause, pauseMix, hrec, hst, hmw, hmcw, selectPolicy, hu1, hu2]
    | some t0 =>
      by_cases ht : t0 = 0 <;>
        cases hu1 : usable fs mw <;> cases hu2 : usable fs mcw <;>
          cases enc <;>
            simp [pause, pauseMix, hrec, hst, ht, hmw, hmcw, selectPolicy, hu1, hu2]

theorem c9_pause_result_ignores_encode_witness :
    (sOpen.monitorWav = some monWavA ∧ sOpen.micWav = some micWavA) ∧
    (pause sOpen [(micWavA, 5000)] ⟨3, none⟩).1
      = (sOpen.isRecording &&
          (usable [(micWavA, 5000)] monWavA || usable [(micWavA, 5000)] micWavA)) :=
  ⟨⟨rfl, rfl⟩,
   c9_pause_result_ignores_encode sOpen [(micWavA, 5000)] ⟨3, none⟩ monWavA micWavA rfl rfl⟩

/- Helper facts for the `stop` claims. -/

theorem isEmpty_false_of_filter_cons (l : List FsPath) (f : FsPath → Bool)
    (x : FsPath) (xs : List FsPath) (h : l.filter f = x :: xs) :
    l.isEmpty = false := by
  cases l with
  | nil => simp at h
  | cons a as => rfl

theorem stop_not_recording (s : RecorderState) (fs : FS) (env : StopEnv)
    (hrec : s.isRecording = false) :
    stop s fs env = stopCore s fs env := by
  simp [stop, hrec]

theorem not_fexists_unlink_foldl (fs : FS) (l : List FsPath) (c x : FsPath)
    (hx : x ∈ l) :
    (!(FS.fexists (FS.unlink (l.foldl FS.unlink fs) c) x)) = true := by
  have h1 : FS.stat (FS.unlink (l.foldl FS.unlink fs) c) x = none := by
    rw [stat_unlink]
    split
    · rfl
    · exact stat_foldl_unlink_of_mem l x fs hx
  simp [FS.fexists, h1]

/-- Claim C8: with exactly one valid segment surviving the defensive
re-check, `stop` returns exactly that segment's path and touches no file
(in particular no concat manifest is written and no output is produced:
no concatenation subprocess runs); this holds for every environment, so in
particular the outcome of a would-be concat invocation is irrelevant. -/
theorem c8_single_segment_no_concat (s : RecorderState) (fs : FS) (env : StopEnv)
    (p : FsPath)
    (hrec : s.isRecording = false)
    (hone : s.recordingParts.filter (fun q => usable fs q) = [p]) :
    (stop s fs env).1 = some p ∧
    (stop s fs env).2.2 = fs ∧
    (stop s fs env).2.1.recordingParts = [p] := by
  have hne := isEmpty_false_of_filter_cons _ _ _ _ hone
  rw [stop_not_recording s fs env hrec]
  refine ⟨?_, ?_, ?_⟩ <;> simp [stopCore, hne, hone]

theorem c8_single_segment_no_concat_witness :
    (sOne.isRecording = false ∧
     sOne.recordingParts.filter (fun q => usable fsOne q) = [seg0]) ∧
    ((stop sOne fsOne ⟨⟨0, none⟩, tsB, some 9000⟩).1 = some seg0 ∧
     (stop sOne fsOne ⟨⟨0, none⟩, tsB, some 9000⟩).2.2 = fsOne ∧
     (stop sOne fsOne ⟨⟨0, none⟩, tsB, some 9000⟩).2.1.recordingParts = [seg0]) :=
  ⟨⟨rfl, by decide⟩,
   c8_single_segment_no_concat sOne fsOne ⟨⟨0, none⟩, tsB, some 9000⟩ seg0 rfl (by decide)⟩

/-- Claim C10: on the single-valid-segment path `stop` does not reset the
session: the returned path stays in the ledger, `total_duration` keeps its
value, the filesystem is untouched, and calling `stop` again on the
resulting state (with the filesystem unchanged in between) returns the same
path again. -/
theorem c10_single_segment_state_not_reset (s : RecorderState) (fs : FS)
    (env env2 : StopEnv) (p : FsPath)
    (hrec : s.isRecording = false)
    (hone : s.recordingParts.filter (fun q => usable fs q) = [p]) :
    (stop s fs env).1 = some p ∧
    (stop s fs env).2.1.recordingParts = [p] ∧
    (stop s fs env).2.1.totalDuration = s.totalDuration ∧
    (stop s fs env).2.2 = fs ∧
    (stop (stop s fs env).2.1 (stop s fs env).2.2 env2).1 = some p := by
  have hne := isEmpty_false_of_filter_cons _ _ _ _ hone
  have hres : stop s fs env = (some p, { s with recordingParts := [p] }, fs) := by
    rw [stop_not_recording s fs env hrec]
    simp [stopCore, hne, hone]
  have husable : usable fs p = true := by
    have hp : p ∈ s.recordingParts.filter (fun q => usable fs q) := by
      rw [hone]; exact List.mem_cons_self p []
    exact (List.mem_filter.mp hp).2
  have hrec2 : ({ s with recordingParts := [p] } : RecorderState).isRecording = false :=
    hrec
  have hres2 : stop ({ s with recordingParts := [p] } : RecorderState) fs env2
      = (some p, { s with recordingParts := [p] }, fs) := by
    rw [stop_not_recording _ fs env2 hrec2]
    simp [stopCore, husable]
  rw [hres]
  exact ⟨rfl, rfl, rfl, rfl, by rw [hres2]⟩

theorem c10_single_segment_state_not_reset_witness :
    (sOne.isRecording = false ∧
     sOne.recordingParts.filter (fun q => usable fsOne q) = [seg0]) ∧
    ((stop sOne fsOne ⟨⟨0, none⟩, tsA, none⟩).1 = some seg0 ∧
     (stop sOne fsOne ⟨⟨0, none⟩, tsA, none⟩).2.1.recordingParts = [seg0] ∧
     (stop sOne fsOne ⟨⟨0, none⟩, tsA, none⟩).2.1.totalDuration = sOne.totalDuration ∧
     (stop sOne fsOne ⟨⟨0, none⟩, tsA, none⟩).2.2 = fsOne ∧
     (stop (stop sOne fsOne ⟨⟨0, none⟩, tsA, none⟩).2.1
        (stop sOne fsOne ⟨⟨0, none⟩, tsA, none⟩).2.2 ⟨⟨1, none⟩, tsB, some 2⟩).1
       = some seg0) :=
  ⟨⟨rfl, by decide⟩,
   c10_single_segment_state_not_reset sOne fsOne ⟨⟨0, none⟩, tsA, none⟩
     ⟨⟨1, none⟩, tsB, some 2⟩ seg0 rfl (by decide)⟩

/-- Claim C4: when the concat invocation exits non-zero, `stop` returns the
first surviving segment's path (an artifact, not `None`), the filtered
segments stay in the ledger, and every one of them is still a valid file
afterward (nothing is deleted on the failure branch; only the manifest was
written, whose name never collides with a segment path). -/
theorem c4_concat_failure_returns_first (s : RecorderState) (fs : FS) (env : StopEnv)
    (p q : FsPath) (rest : List FsPath)
    (hrec : s.isRecording = false)
    (hshape : partsShaped s.recordingParts = true)
    (hparts : s.recordingParts.filter (fun x => usable fs x) = p :: q :: rest)
    (hfail : env.concat = none) :
    (stop s fs env).1 = some p ∧
    (stop s fs env).2.1.recordingParts = p :: q :: rest ∧
    ((p :: q :: rest).all (fun x => usable (stop s fs env).2.2 x)) = true := by
  have hne := isEmpty_false_of_filter_cons _ _ _ _ hparts
  have hres : stop s fs env =
      (some p,
       { s with recordingParts := p :: q :: rest },
       FS.write fs (concatListPath env.timestamp)
         (manifestContent fs (p :: q :: rest)).length) := by
    rw [stop_not_recording s fs env hrec]
    simp [stopCore, hne, hparts, hfail]
  rw [hres]
  refine ⟨rfl, rfl, ?_⟩
  rw [List.all_eq_true]
  intro x hx
  have hxmem : x ∈ s.recordingParts.filter (fun y => usable fs y) := by
    rw [hparts]; exact hx
  have hxr : x ∈ s.recordingParts := (List.mem_filter.mp hxmem).1
  have hxu : usable fs x = true := (List.mem_filter.mp hxmem).2
  have hxs : x.take 16 = tempSegTag :=
    eq_of_beq ((List.all_eq_true.mp hshape) x hxr)
  have hxc : x ≠ concatListPath env.timestamp :=
    shaped_ne_concatListPath x env.timestamp hxs
  unfold usable
  rw [stat_write, if_neg hxc]
  exact hxu

theorem c4_concat_failure_returns_first_witness :
    (sTwo.isRecording = false ∧
     partsShaped sTwo.recordingParts = true ∧
     sTwo.recordingParts.filter (fun x => usable fsTwo x) = seg0 :: seg1 :: []) ∧
    ((stop sTwo fsTwo ⟨⟨0, none⟩, tsB, none⟩).1 = some seg0 ∧
     (stop sTwo fsTwo ⟨⟨0, none⟩, tsB, none⟩).2.1.recordingParts = seg0 :: seg1 :: [] ∧
     ((seg0 :: seg1 :: []).all
        (fun x => usable (stop sTwo fsTwo ⟨⟨0, none⟩, tsB, none⟩).2.2 x)) = true) :=
  ⟨⟨rfl, by decide, by decide⟩,
   c4_concat_failure_returns_first sTwo fsTwo ⟨⟨0, none⟩, tsB, none⟩ seg0 seg1 []
     rfl (by decide) (by decide) rfl⟩

/-- Claim C3: on the concatenation success path with two or more valid
segments, `stop` returns a freshly named merged path distinct from every
input segment, every input segment file is deleted, the ledger is reset to
empty and `total_duration` is reset to zero. -/
theorem c3_concat_success (s : RecorderState) (fs : FS) (env : StopEnv)
    (p q : FsPath) (rest : List FsPath) (n : Nat)
    (hrec : s.isRecording = false)
    (hshape : partsShaped s.recordingParts = true)
    (hparts : s.recordingParts.filter (fun x => usable fs x) = p :: q :: rest)
    (hok : env.concat = some n) :
    (stop s fs env).1 = some (mergedPath env.timestamp) ∧
    ((p :: q :: rest).all (fun x => !(x == mergedPath env.timestamp))) = true ∧
    ((p :: q :: rest).all (fun x => !(FS.fexists (stop s fs env).2.2 x))) = true ∧
    (stop s fs env).2.1.recordingParts = [] ∧
    (stop s fs env).2.1.totalDuration = 0 := by
  have hne := isEmpty_false_of_filter_cons _ _ _ _ hparts
  have hres : stop s fs env =
      (some (mergedPath env.timestamp),
       { s with recordingParts := [], totalDuration := 0 },
       FS.unlink
         ((p :: q :: rest).foldl FS.unlink
           (FS.write
             (FS.write fs (concatListPath env.timestamp)
               (manifestContent fs (p :: q :: rest)).length)
             (mergedPath env.timestamp) n))
         (concatListPath env.timestamp)) := by
    rw [stop_not_recording s fs env hrec]
    simp [stopCore, hne, hparts, hok]
  rw [hres]
  refine ⟨rfl, ?_, ?_, rfl, rfl⟩
  · rw [List.all_eq_true]
    intro x hx
    have hxmem : x ∈ s.recordingParts.filter (fun y => usable fs y) := by
      rw [hparts]; exact hx
    have hxs : x.take 16 = tempSegTag :=
      eq_of_beq ((List.all_eq_true.mp hshape) x (List.mem_filter.mp hxmem).1)
    have hxm : x ≠ mergedPath env.timestamp :=
      shaped_ne_mergedPath x env.timestamp hxs
    simp [hxm]
  · rw [List.all_eq_true]
    intro x hx
    exact not_fexists_unlink_foldl
      (FS.write
        (FS.write fs (concatListPath env.timestamp)
          (manifestContent fs (p :: q :: rest)).length)
        (mergedPath env.timestamp) n)
      (p :: q :: rest) (concatListPath env.timestamp) x hx

theorem c3_concat_success_witness :
    (sTwo.isRecording = false ∧
     partsShaped sTwo.recordingParts = true ∧
     sTwo.recordingParts.filter (fun x => usable fsTwo x) = seg0 :: seg1 :: [] ∧
     (⟨⟨0, none⟩, tsB, some 9000⟩ : StopEnv).concat = some 9000) ∧
    ((stop sTwo fsTwo ⟨⟨0, none⟩, tsB, some 9000⟩).1 = some (mergedPath tsB) ∧
     ((seg0 :: seg1 :: []).all (fun x => !(x == mergedPath tsB))) = true ∧
     ((seg0 :: seg1 :: []).all
        (fun x => !(FS.fexists (stop sTwo fsTwo ⟨⟨0, none⟩, tsB, some 9000⟩).2.2 x))) = true ∧
     (stop sTwo fsTwo ⟨⟨0, none⟩, tsB, some 9000⟩).2.1.recordingParts = [] ∧
     (stop sTwo fsTwo ⟨⟨0, none⟩, tsB, some 9000⟩).2.1.totalDuration = 0) :=
  ⟨⟨rfl, by decide, by decide, rfl⟩,
   c3_concat_success sTwo fsTwo ⟨⟨0, none⟩, tsB, some 9000⟩ seg0 seg1 [] 9000
     rfl (by decide) (by decide) rfl⟩

/- Duration-tracking helpers for claim C6. -/

theorem start_totalDuration (s : RecorderState) (env : StartEnv) :
    (start s env).2.totalDuration = s.totalDuration := by
  cases hrec : s.isRecording <;> cases hl : env.launch <;> simp [start, hrec, hl]

theorem pauseMix_totalDuration (s1 : RecorderState) (fs : FS) (enc : Option Nat) :
    (pauseMix s1 fs enc).2.1.totalDuration = s1.totalDuration := by
  cases hmw : s1.monitorWav with
  | none => cases hmcw : s1.micWav <;> simp [pauseMix, hmw, hmcw]
  | some mw =>
    cases hmcw : s1.micWav with
    | none => simp [pauseMix, hmw, hmcw]
    | some mcw =>
      cases hpol : selectPolicy (usable fs mw) (usable fs mcw) <;>
        cases enc <;>
          simp [pauseMix, hmw, hmcw, hpol]

theorem pause_totalDuration_ge (s : RecorderState) (fs : FS) (env : PauseEnv)
    (h : clockOk s env.now = true) :
    s.totalDuration ≤ (pause s fs env).2.1.totalDuration := by
  cases hrec : s.isRecording with
  | false => simp [pause, hrec]
  | true =>
    cases hst : s.startTime with
    | none => simp [pause, hrec, hst, pauseMix_totalDuration]
    | some t0 =>
      have ht0 : t0 ≤ env.now := by
        unfold clockOk at h
        rw [hst] at h
        exact of_decide_eq_true h
      by_cases ht : t0 = 0
      · simp [pause, hrec, hst, ht, pauseMix_totalDuration]
      · simp [pause, hrec, hst, ht, pauseMix_totalDuration]
        linarith

theorem stopCore_totalDuration (s : RecorderState) (fs : FS) (env : StopEnv) :
    (stopCore s fs env).2.1.totalDuration = 0 ∨
    (stopCore s fs env).2.1.totalDuration = s.totalDuration := by
  by_cases he : s.recordingParts.isEmpty = true
  · right
    simp [stopCore, he]
  · have he' : s.recordingParts.isEmpty = false := by
      cases hb : s.recordingParts.isEmpty
      · rfl
      · exact absurd hb he
    rcases hf : s.recordingParts.filter (fun p => usable fs p) with _ | ⟨p, _ | ⟨q, rest⟩⟩
    · right; simp [stopCore, he', hf]
    · right; simp [stopCore, he', hf]
    · cases hc : env.concat with
      | some n => left; simp [stopCore, he', hf, hc]
      | none => right; simp [stopCore, he', hf, hc]

/-- Claim C6, counterexample: `total_duration` is NOT monotonically
non-decreasing across every operation — the concatenation success path of
`stop` resets it from 10 to 0 (line 235 of the source). -/
theorem c6_stop_resets_duration :
    sTwo.totalDuration = 10 ∧
    (stop sTwo fsTwo ⟨⟨0, none⟩, tsA, some 9000⟩).2.1.totalDuration = 0 ∧
    ¬ (sTwo.totalDuration ≤ (stop sTwo fsTwo ⟨⟨0, none⟩, tsA, some 9000⟩).2.1.totalDuration) := by
  decide

/-- Claim C6 (amended): `total_duration` never decreases under `start` or
under `pause` (given the wall clock has not gone backwards since the cycle
start), and the pure observers `get_duration`/`get_file_size` do not touch
state at all; `stop` also never decreases it except on the multi-segment
concatenation success path, where it is reset to zero. -/
theorem c6_duration_monotone_outside_reset (s : RecorderState) (fs : FS)
    (e1 : StartEnv) (e2 : PauseEnv) (e3 : StopEnv)
    (h2 : clockOk s e2.now = true)
    (h3 : clockOk s e3.pauseEnv.now = true) :
    s.totalDuration ≤ (start s e1).2.totalDuration ∧
    s.totalDuration ≤ (pause s fs e2).2.1.totalDuration ∧
    ((stop s fs e3).2.1.totalDuration = 0 ∨
      s.totalDuration ≤ (stop s fs e3).2.1.totalDuration) := by
  refine ⟨?_, ?_, ?_⟩
  · rw [start_totalDuration]
  · exact pause_totalDuration_ge s fs e2 h2
  · cases hrec : s.isRecording with
    | false =>
      rw [stop_not_recording s fs e3 hrec]
      rcases stopCore_totalDuration s fs e3 with h | h
      · exact Or.inl h
      · exact Or.inr (by rw [h])
    | true =>
      have hstop : stop s fs e3
          = stopCore (pause s fs e3.pauseEnv).2.1 (pause s fs e3.pauseEnv).2.2 e3 := by
        simp [stop, hrec]
      rw [hstop]
      rcases stopCore_totalDuration (pause s fs e3.pauseEnv).2.1
        (pause s fs e3.pauseEnv).2.2 e3 with h | h
      · exact Or.inl h
      · exact Or.inr (by rw [h]; exact pause_totalDuration_ge s fs e3.pauseEnv h3)

theorem c6_duration_monotone_outside_reset_witness :
    (clockOk sTwo (0 : Rat) = true ∧ clockOk sTwo (0 : Rat) = true) ∧
    (sTwo.totalDuration ≤ (start sTwo ⟨tsA, 0, LaunchOutcome.ok 1 2⟩).2.totalDuration ∧
     sTwo.totalDuration ≤ (pause sTwo [] ⟨0, none⟩).2.1.totalDuration ∧
     ((stop sTwo fsTwo ⟨⟨0, none⟩, tsB, none⟩).2.1.totalDuration = 0 ∨
       sTwo.totalDuration ≤ (stop sTwo fsTwo ⟨⟨0, none⟩, tsB, none⟩).2.1.totalDuration)) :=
  ⟨⟨rfl, rfl⟩,
   c6_duration_monotone_outside_reset sTwo fsTwo ⟨tsA, 0, LaunchOutcome.ok 1 2⟩
     ⟨0, none⟩ ⟨⟨0, none⟩, tsB, none⟩ rfl rfl⟩
